import Mathlib

/-!
Verification of the feature-engineering and aggregation pipeline
(`src/transformation.py`, `src/features.py`, `scripts/predict.py`).

Shallow embedding conventions:
* pandas DataFrames are `List` of row structures, in row order;
* float64 monetary values are embedded as `Rat` (exact arithmetic);
  a float NaN arising from a failed FX join is embedded as `Option.none`;
* pandas Timestamps are embedded as the day number of the date
  (days since 1970-01-01), type `Int`; a not-yet-parsed date column
  (as loaded from CSV) is a `DateV.raw` string and `pd.to_datetime`
  is `pdToDatetime`;
* customer identifiers are abstract sortable keys, embedded as `Nat`
  (pandas sorts the id strings; only the induced order matters);
* in-place DataFrame mutation is embedded by returning the post-state
  of the mutated table alongside the result.
-/

/-- Civil-calendar day number (days since 1970-01-01) of a (year, month, day)
triple, the standard days-from-civil algorithm; embeds the timestamp
arithmetic of pandas datetimes.  All intermediate divisions act on
non-negative operands for valid CE dates. -/
def daysFromCivil (y m d : Int) : Int :=
  let y2 : Int := if m ≤ 2 then y - 1 else y
  let era : Int := (if 0 ≤ y2 then y2 else y2 - 399) / 400
  let yoe : Int := y2 - era * 400
  let doy : Int := (153 * ((m + 9) % 12) + 2) / 5 + d - 1
  let doe : Int := yoe * 365 + yoe / 4 - yoe / 100 + doy
  era * 146097 + doe - 719468

/-- Inverse of `daysFromCivil`: (year, month, day) of a day number. -/
def civilFromDays (z : Int) : Int × Int × Int :=
  let z2 : Int := z + 719468
  let era : Int := (if 0 ≤ z2 then z2 else z2 - 146096) / 146097
  let doe : Int := z2 - era * 146097
  let yoe : Int := (doe - doe / 1460 + doe / 36524 - doe / 146096) / 365
  let doy : Int := doe - (365 * yoe + yoe / 4 - yoe / 100)
  let mp : Int := (5 * doy + 2) / 153
  let d : Int := doy - (153 * mp + 2) / 5 + 1
  let m : Int := mp + (if mp < 10 then 3 else -9)
  (yoe + era * 400 + (if m ≤ 2 then 1 else 0), m, d)

/-- Embedding of `pandas .dt.dayofweek` (0 = Monday .. 6 = Sunday) on a day
number; day 0 (1970-01-01) was a Thursday. -/
def dayOfWeekOfDays (z : Int) : Int := (z + 3) % 7

/-- Embedding of `pandas .dt.day` (day of month) on a day number. -/
def dayOfMonthOfDays (z : Int) : Int := (civilFromDays z).2.2

/-- Embedding of `pd.to_datetime` on an ISO `YYYY-MM-DD` string, yielding the
day number of the date. -/
def parseDate (s : String) : Int :=
  match s.splitOn "-" with
  | [ys, ms, ds] =>
      daysFromCivil ((ys.toNat?.getD 0 : Nat) : Int)
        ((ms.toNat?.getD 0 : Nat) : Int) ((ds.toNat?.getD 0 : Nat) : Int)
  | _ => 0

/-- Value of a pandas date column cell: either still the raw CSV string, or
already converted to a timestamp (day number). -/
inductive DateV where
  | raw (s : String)
  | ts (n : Int)
deriving DecidableEq

/-- Embedding of `pd.to_datetime` on a date column cell. -/
def pdToDatetime : DateV → Int
  | .raw s => parseDate s
  | .ts n => n

/-- Row of the cleaned transaction table reaching
`transformation.convert_to_gbp` (columns used there; the text columns
`product_id` / `description` / `timestamp` are never read by the core). -/
structure TxnLine where
  invoice_id : Nat
  customer_id : Nat
  quantity : Int
  unit_price : Rat
  currency : String
  file_date : String
deriving DecidableEq

/-- Row of the FX-rate table
(`fx_rates` with columns `date`, `currency`, `rate_to_gbp`). -/
structure FxRow where
  date : DateV
  currency : String
  rate_to_gbp : Rat
deriving DecidableEq

/-- Row of `df_with_fx` as produced by `convert_to_gbp`: the joined line with
the derived `date` column, the (possibly missing = NaN) joined rate, and the
`price_gbp` column (`none` embeds float NaN). -/
structure ConvertedLine where
  invoice_id : Nat
  customer_id : Nat
  quantity : Int
  unit_price : Rat
  currency : String
  file_date : String
  date : Int
  rate_to_gbp : Option Rat
  price_gbp : Option Rat
deriving DecidableEq

/-- Result of `convert_to_gbp`: the output table, the post-state of the
caller's `fx_rates` table (its `date` column is assigned in place on line 24
of `transformation.py`), and the `missing_fx` count that is printed as the
data-quality warning. -/
structure ConvertResult where
  out : List ConvertedLine
  fx_after : List FxRow
  missing_fx : Nat
deriving DecidableEq

/-- Embedding of `transformation.convert_to_gbp`.
Steps, as in the source: `df['date'] = pd.to_datetime(df['file_date'])`;
`fx_rates['date'] = pd.to_datetime(fx_rates['date'])` (in-place mutation of
the rate table, reflected in `fx_after`); left merge on `(date, currency)`
(a line with several matching rate rows is duplicated, one with no match
gets a NaN rate); count missing rates and, if any, default the rate of GBP
rows to 1.0; finally `price_gbp = unit_price * rate_to_gbp` (NaN propagates:
`none` stays `none`). -/
def convert_to_gbp (df : List TxnLine) (fx_rates : List FxRow) : ConvertResult :=
  let fxConv : List FxRow :=
    fx_rates.map (fun r => { r with date := DateV.ts (pdToDatetime r.date) })
  let merged : List ConvertedLine :=
    df.flatMap (fun l =>
      let d : Int := parseDate l.file_date
      let ms := fxConv.filter
        (fun r => r.date == DateV.ts d && r.currency == l.currency)
      if ms.isEmpty then
        [{ invoice_id := l.invoice_id, customer_id := l.customer_id,
           quantity := l.quantity, unit_price := l.unit_price,
           currency := l.currency, file_date := l.file_date,
           date := d, rate_to_gbp := none, price_gbp := none }]
      else
        ms.map (fun r =>
          { invoice_id := l.invoice_id, customer_id := l.customer_id,
            quantity := l.quantity, unit_price := l.unit_price,
            currency := l.currency, file_date := l.file_date,
            date := d, rate_to_gbp := some r.rate_to_gbp, price_gbp := none }))
  let missing : Nat := merged.countP (fun r => r.rate_to_gbp.isNone)
  let fixed : List ConvertedLine :=
    if 0 < missing then
      merged.map (fun r =>
        if r.currency == "GBP" && r.rate_to_gbp.isNone then
          { r with rate_to_gbp := some 1 }
        else r)
    else merged
  let withPrice : List ConvertedLine :=
    fixed.map (fun r =>
      { r with price_gbp := r.rate_to_gbp.map (fun q => r.unit_price * q) })
  { out := withPrice, fx_after := fxConv, missing_fx := missing }

/-- Embedding of a pandas NaN-skipping column sum (`Series.sum` with the
default `skipna=True`): `none` cells are skipped, an all-`none` column sums
to 0. -/
def optSum (l : List (Option Rat)) : Rat := (l.filterMap id).sum

/-- Embedding of the `value_gbp` column: `quantity * price_gbp`
(NaN propagates). -/
def valueGbp (r : ConvertedLine) : Option Rat :=
  r.price_gbp.map (fun p => (r.quantity : Rat) * p)

/-- Embedding of the `gross_value` column:
`value_gbp.where(quantity > 0, 0)`. -/
def grossValue (r : ConvertedLine) : Option Rat :=
  if 0 < r.quantity then valueGbp r else some 0

/-- Embedding of the `returns_value` column:
`value_gbp.where(quantity < 0, 0)`. -/
def returnsValue (r : ConvertedLine) : Option Rat :=
  if r.quantity < 0 then valueGbp r else some 0

/-- Row of the aggregated daily-customer-metrics table
(output schema of `aggregate_daily_customer_metrics`). -/
structure MetricRow where
  date : Int
  customer_id : Nat
  orders : Int
  items : Int
  gross_gbp : Rat
  returns_gbp : Rat
  net_gbp : Rat
deriving DecidableEq

/-- Lexicographic order on the groupby keys `(date, customer_id)`;
pandas `groupby` with the default `sort=True` emits groups in this order. -/
def KeyLE (a b : Int × Nat) : Prop :=
  a.1 < b.1 ∨ (a.1 = b.1 ∧ a.2 ≤ b.2)

instance : DecidableRel KeyLE := fun a b =>
  decidable_of_iff (a.1 < b.1 ∨ (a.1 = b.1 ∧ a.2 ≤ b.2)) Iff.rfl

instance : IsTotal (Int × Nat) KeyLE :=
  ⟨by
    intro a b
    rcases lt_trichotomy a.1 b.1 with h | h | h
    · exact Or.inl (Or.inl h)
    · rcases Nat.le_total a.2 b.2 with h2 | h2
      · exact Or.inl (Or.inr ⟨h, h2⟩)
      · exact Or.inr (Or.inr ⟨h.symm, h2⟩)
    · exact Or.inr (Or.inl h)⟩

instance : IsTrans (Int × Nat) KeyLE :=
  ⟨by
    intro a b c hab hbc
    rcases hab with h | ⟨he, h2⟩
    · rcases hbc with h' | ⟨he', _⟩
      · exact Or.inl (h.trans h')
      · exact Or.inl (he' ▸ h)
    · rcases hbc with h' | ⟨he', h2'⟩
      · exact Or.inl (he ▸ h')
      · exact Or.inr ⟨he.trans he', h2.trans h2'⟩⟩

/-- Group keys of the aggregation: the distinct `(date, customer_id)` pairs,
in the sorted order in which pandas `groupby(sort=True)` emits the groups. -/
def groupKeys (rows : List ConvertedLine) : List (Int × Nat) :=
  List.insertionSort KeyLE ((rows.map (fun r => (r.date, r.customer_id))).dedup)

/-- Embedding of `nunique` on the `invoice_id` column of a group. -/
def nuniqueInvoices (g : List ConvertedLine) : Nat :=
  ((g.map (fun r => r.invoice_id)).dedup).length

/-- Aggregated row for one `(date, customer_id)` group. -/
def aggRow (rows : List ConvertedLine) (k : Int × Nat) : MetricRow :=
  let g := rows.filter (fun r => r.date == k.1 && r.customer_id == k.2)
  { date := k.1, customer_id := k.2,
    orders := (nuniqueInvoices g : Int),
    items := ((g.map (fun r => r.quantity.natAbs)).sum : Int),
    gross_gbp := optSum (g.map grossValue),
    returns_gbp := optSum (g.map returnsValue),
    net_gbp := optSum (g.map valueGbp) }

/-- Embedding of `transformation.aggregate_daily_customer_metrics`:
one output row per distinct `(date, customer_id)` key with
`orders` = number of distinct invoices in the group,
`items` = sum of absolute quantities,
`gross_gbp` / `returns_gbp` / `net_gbp` = NaN-skipping sums of the
`gross_value` / `returns_value` / `value_gbp` columns. -/
def aggregate_daily_customer_metrics (rows : List ConvertedLine) : List MetricRow :=
  (groupKeys rows).map (aggRow rows)

/-- Embedding of `transformation.transform_data` (the `save_metrics` file
I/O is an excluded collaborator). -/
def transform_data (transactions : List TxnLine) (fx_rates : List FxRow) : List MetricRow :=
  aggregate_daily_customer_metrics (convert_to_gbp transactions fx_rates).out

/-- Lexicographic sort order `['customer_id', 'date']` used by
`features.engineer_features` (line 169) and by each per-customer transform. -/
def RowLE (a b : MetricRow) : Prop :=
  a.customer_id < b.customer_id ∨ (a.customer_id = b.customer_id ∧ a.date ≤ b.date)

instance : DecidableRel RowLE := fun a b =>
  decidable_of_iff (a.customer_id < b.customer_id ∨
    (a.customer_id = b.customer_id ∧ a.date ≤ b.date)) Iff.rfl

instance : IsTotal MetricRow RowLE :=
  ⟨by
    intro a b
    rcases lt_trichotomy a.customer_id b.customer_id with h | h | h
    · exact Or.inl (Or.inl h)
    · rcases Int.le_total a.date b.date with h2 | h2
      · exact Or.inl (Or.inr ⟨h, h2⟩)
      · exact Or.inr (Or.inr ⟨h.symm, h2⟩)
    · exact Or.inr (Or.inl h)⟩

instance : IsTrans MetricRow RowLE :=
  ⟨by
    intro a b c hab hbc
    rcases hab with h | ⟨he, h2⟩
    · rcases hbc with h' | ⟨he', _⟩
      · exact Or.inl (h.trans h')
      · exact Or.inl (he' ▸ h)
    · rcases hbc with h' | ⟨he', h2'⟩
      · exact Or.inl (he ▸ h')
      · exact Or.inr ⟨he.trans he', h2.trans h2'⟩⟩

/-- Kernel-computable maximum of two rationals (`Series.clip(lower=...)`
keeps the larger of value and bound). -/
def ratMax (a b : Rat) : Rat := if a ≤ b then b else a

/-- Kernel-computable minimum of two rationals (`Series.clip(upper=...)`
keeps the smaller of value and bound). -/
def ratMin (a b : Rat) : Rat := if a ≤ b then a else b

/-- Last `n` elements of a list: the rolling window of width `n` taken from
the shifted (strictly prior) history. -/
def lastN (n : Nat) (l : List α) : List α := l.drop (l.length - n)

/-- Mean of a rolling window; an empty window is the NaN that
`fillna(0)` turns into 0. -/
def rollingMean (l : List Rat) : Rat :=
  if l.length = 0 then 0 else l.sum / (l.length : Rat)

/-- Square of the sample standard deviation (`Series.rolling(...).std()`,
`ddof = 1`) of a window, with the NaN of a window of fewer than two
observations already replaced by the 0 of `fillna(0)`.
The source column holds the square root of this value; since
`Real.sqrt` is a strictly monotone bijection of `[0, ∞)` fixing 0, every
property proved here about this column (being 0, being unchanged between
two runs) holds for the source column iff it holds for this embedding, and
this form keeps the pipeline inside exact `Rat` arithmetic. -/
def rollingStdSq (l : List Rat) : Rat :=
  if l.length ≤ 1 then 0
  else
    let m := l.sum / (l.length : Rat)
    (l.map (fun x => (x - m) * (x - m))).sum / ((l.length : Rat) - 1)

/-- Max of a rolling window; an empty window is the NaN that
`fillna(0)` turns into 0. -/
def rollingMax (l : List Rat) : Rat :=
  match l with
  | [] => 0
  | x :: xs => xs.foldl ratMax x

/-- Row of the feature-augmented table produced by
`features.engineer_features`: the original metric columns followed by the
engineered feature columns, in the order the pipeline creates them.
`rolling_3d_std_net` stores the square of the source's standard-deviation
column (see `rollingStdSq`). -/
structure FeaturedRow where
  date : Int
  customer_id : Nat
  orders : Int
  items : Int
  gross_gbp : Rat
  returns_gbp : Rat
  net_gbp : Rat
  day_of_week : Int
  day_of_month : Int
  is_weekend : Int
  rolling_3d_mean_net : Rat
  rolling_3d_std_net : Rat
  rolling_3d_max_net : Rat
  rolling_3d_sum_orders : Rat
  lag_1d_net_gbp : Rat
  lag_1d_orders : Rat
  lag_1d_items : Rat
  lag_2d_net_gbp : Rat
  lag_2d_orders : Rat
  lag_2d_items : Rat
  customer_total_orders : Rat
  customer_total_spend : Rat
  customer_days_active : Int
  customer_avg_order_value : Rat
  avg_items_per_order : Rat
  returns_ratio : Rat
deriving DecidableEq

/-- Feature values of the row at one position of the sorted metrics table.
`prior` is the list of all rows strictly before the position (in the
`(customer_id, date)` sort order of the whole frame) and `row` the row at
the position.  Column by column:

* `day_of_week` / `day_of_month` / `is_weekend`: `create_temporal_features`,
  functions of the row's own date;
* rolling columns: `create_rolling_features` with `windows=[3]` — per
  customer, `shift(1)` then `rolling(window=3, min_periods=1)`, so the
  window at this row is the last (up to) 3 of the customer's strictly
  earlier rows; an empty window is NaN, filled with 0;
* lag columns: `create_lag_features` with `lags=[1, 2]` — the customer's
  value 1 resp. 2 observed rows back, NaN filled with 0;
* lifetime columns: `create_customer_lifetime_features` — per-customer
  `cumsum()` followed by a FRAME-GLOBAL `.shift(1)` (the shift in
  `features.py` lines 111-112 is applied to the whole column, not inside
  the groupby), so the value read here is the cumulative total of the
  frame's immediately preceding row for that preceding row's customer;
  only the first row of the whole frame gets the NaN that `fillna(0)`
  replaces; `customer_days_active` is the row's date minus the first date
  of its customer's group; `customer_avg_order_value` is the shifted
  cumulative spend over the shifted cumulative orders clipped below at 1;
* `avg_items_per_order` / `returns_ratio`: `create_derived_features`,
  same-day ratios of the row's own columns, the latter clipped above at 0. -/
def mkFeatured (prior : List MetricRow) (row : MetricRow) : FeaturedRow :=
  let priorSame := prior.filter (fun r => r.customer_id == row.customer_id)
  let w := lastN 3 (priorSame.map (fun r => r.net_gbp))
  let wOrders := lastN 3 (priorSame.map (fun r => (r.orders : Rat)))
  let revPrior := priorSame.reverse
  let lagNet : Nat → Rat := fun k => ((revPrior.get? (k - 1)).map (fun r => r.net_gbp)).getD 0
  let lagOrders : Nat → Rat := fun k => ((revPrior.get? (k - 1)).map (fun r => (r.orders : Rat))).getD 0
  let lagItems : Nat → Rat := fun k => ((revPrior.get? (k - 1)).map (fun r => (r.items : Rat))).getD 0
  let lifetime : Rat × Rat × Rat :=
    match prior.getLast? with
    | none => (0, 0, 0)
    | some p =>
        let g := prior.filter (fun r => r.customer_id == p.customer_id)
        let ctO : Rat := (g.map (fun r => (r.orders : Rat))).sum
        let ctS : Rat := (g.map (fun r => r.net_gbp)).sum
        (ctO, ctS, ctS / ratMax ctO 1)
  let dow := dayOfWeekOfDays row.date
  { date := row.date, customer_id := row.customer_id,
    orders := row.orders, items := row.items,
    gross_gbp := row.gross_gbp, returns_gbp := row.returns_gbp,
    net_gbp := row.net_gbp,
    day_of_week := dow,
    day_of_month := dayOfMonthOfDays row.date,
    is_weekend := if 5 ≤ dow then 1 else 0,
    rolling_3d_mean_net := rollingMean w,
    rolling_3d_std_net := rollingStdSq w,
    rolling_3d_max_net := rollingMax w,
    rolling_3d_sum_orders := wOrders.sum,
    lag_1d_net_gbp := lagNet 1, lag_1d_orders := lagOrders 1,
    lag_1d_items := lagItems 1,
    lag_2d_net_gbp := lagNet 2, lag_2d_orders := lagOrders 2,
    lag_2d_items := lagItems 2,
    customer_total_orders := lifetime.1,
    customer_total_spend := lifetime.2.1,
    customer_days_active := row.date - ((priorSame.headD row).date),
    customer_avg_order_value := lifetime.2.2,
    avg_items_per_order := (row.items : Rat) / ratMax (row.orders : Rat) 1,
    returns_ratio := ratMin (row.returns_gbp / ratMax row.gross_gbp (1 / 100)) 0 }

/-- Placeholder row (all-zero), used only as the default of positional
lookups that are always in bounds. -/
def defaultMetricRow : MetricRow :=
  { date := 0, customer_id := 0, orders := 0, items := 0,
    gross_gbp := 0, returns_gbp := 0, net_gbp := 0 }

/-- Feature computation over an already-sorted metrics frame: the value at
position `j` of each engineered column is a function of the rows strictly
before `j` and the row at `j` (see `mkFeatured`). -/
def featuresOfSorted (s : List MetricRow) : List FeaturedRow :=
  (List.range s.length).map (fun j => mkFeatured (s.take j) (s.getD j defaultMetricRow))

/-- Embedding of `features.engineer_features`: a stable sort of the metrics
frame by `(customer_id, date)` followed by the per-position feature
computation.  The source re-sorts by the same key inside each transform,
which leaves the already-sorted frame unchanged.  No validation of any kind
(in particular no `(date, customer_id)` uniqueness check) is performed. -/
def engineer_features (df : List MetricRow) : List FeaturedRow :=
  featuresOfSorted (List.insertionSort RowLE df)

/-- Embedding of `features.get_feature_columns`: the Feature Column
Registry, the fixed list of model feature names. -/
def get_feature_columns : List String :=
  ["orders", "items",
   "day_of_week", "day_of_month", "is_weekend",
   "rolling_3d_mean_net", "rolling_3d_std_net", "rolling_3d_max_net",
   "rolling_3d_sum_orders",
   "lag_1d_net_gbp", "lag_1d_orders", "lag_1d_items",
   "lag_2d_net_gbp", "lag_2d_orders", "lag_2d_items",
   "customer_total_orders", "customer_total_spend", "customer_days_active",
   "customer_avg_order_value",
   "avg_items_per_order", "returns_ratio"]

/-- Values of the Feature Column Registry columns of a featured row, in the
order of `get_feature_columns` (the model's feature vector; excludes `date`,
`customer_id` and the target columns `net_gbp`, `gross_gbp`,
`returns_gbp`). -/
def featureVector (fr : FeaturedRow) : List Rat :=
  [(fr.orders : Rat), (fr.items : Rat),
   (fr.day_of_week : Rat), (fr.day_of_month : Rat), (fr.is_weekend : Rat),
   fr.rolling_3d_mean_net, fr.rolling_3d_std_net, fr.rolling_3d_max_net,
   fr.rolling_3d_sum_orders,
   fr.lag_1d_net_gbp, fr.lag_1d_orders, fr.lag_1d_items,
   fr.lag_2d_net_gbp, fr.lag_2d_orders, fr.lag_2d_items,
   fr.customer_total_orders, fr.customer_total_spend,
   (fr.customer_days_active : Rat), fr.customer_avg_order_value,
   fr.avg_items_per_order, fr.returns_ratio]

/-- Calendar, rolling and lag components of the feature vector (the
strictly-causal feature groups of the Feature Engine). -/
def causalVector (fr : FeaturedRow) : List Rat :=
  [(fr.day_of_week : Rat), (fr.day_of_month : Rat), (fr.is_weekend : Rat),
   fr.rolling_3d_mean_net, fr.rolling_3d_std_net, fr.rolling_3d_max_net,
   fr.rolling_3d_sum_orders,
   fr.lag_1d_net_gbp, fr.lag_1d_orders, fr.lag_1d_items,
   fr.lag_2d_net_gbp, fr.lag_2d_orders, fr.lag_2d_items]

/-- Embedding of `scripts/predict.load_customer_data` (after the parquet
read): filter the metrics table to the requested customer, error when the
customer has no rows at all, then keep only the rows strictly before the
target date, and error again when none remain. -/
def load_customer_data (df : List MetricRow) (customer_id : Nat)
    (target_date : Int) : Except String (List MetricRow) :=
  let customer_data := df.filter (fun r => r.customer_id == customer_id)
  if customer_data.length = 0 then
    Except.error "No historical data found for customer"
  else
    let before := customer_data.filter (fun r => decide (r.date < target_date))
    if before.length = 0 then
      Except.error "No historical data found for customer before target date"
    else
      Except.ok before

/-- Embedding of `scripts/predict.prepare_prediction_features`: append a
placeholder row for the target date (orders, items and all monetary columns
0) to the customer's history, run `engineer_features` on the combined frame,
and return the feature vectors of the rows at the target date. -/
def prepare_prediction_features (customer_data : List MetricRow)
    (target_date : Int) : List (List Rat) :=
  let dummyCustomer := (customer_data.headD defaultMetricRow).customer_id
  let dummy_row : MetricRow :=
    { date := target_date, customer_id := dummyCustomer,
      orders := 0, items := 0, gross_gbp := 0, returns_gbp := 0, net_gbp := 0 }
  let combined := customer_data ++ [dummy_row]
  let featured := engineer_features combined
  (featured.filter (fun fr => fr.date == target_date)).map featureVector

/-! ### Key predicates used in the claim statements -/

/-- Boolean predicate selecting the metric row with key `(customer, date)`. -/
def keyP (c : Nat) (d : Int) (r : MetricRow) : Bool :=
  r.customer_id == c && r.date == d

/-- Boolean predicate selecting the featured row with key `(customer, date)`. -/
def keyPF (c : Nat) (d : Int) (fr : FeaturedRow) : Bool :=
  fr.customer_id == c && fr.date == d

/-- Boolean predicate selecting the rows of customer `c` strictly before
date `d` (the customer's prior observed history). -/
def priorP (c : Nat) (d : Int) (r : MetricRow) : Bool :=
  r.customer_id == c && decide (r.date < d)

/-! ### General list lemmas -/

lemma countP_take_drop {α : Type} (p : α → Bool) (l : List α) (j : Nat) :
    l.countP p = (l.take j).countP p + (l.drop j).countP p := by
  conv_lhs => rw [← List.take_append_drop j l]
  exact List.countP_append p _ _

lemma single_filter {α : Type} {p : α → Bool} {l : List α} {a : α}
    (h1 : l.countP p = 1) (ha : a ∈ l) (hpa : p a = true) : l.filter p = [a] := by
  have hlen : (l.filter p).length = 1 := by
    rw [← List.countP_eq_length_filter]; exact h1
  have haf : a ∈ l.filter p := List.mem_filter.mpr ⟨ha, hpa⟩
  match hfp : l.filter p with
  | [] => rw [hfp] at haf; simp at haf
  | [b] => rw [hfp] at haf; simp at haf; rw [haf]
  | b :: c :: rest => rw [hfp] at hlen; simp at hlen

lemma map_eq_self_of_fix {α : Type} {f : α → α} {l : List α}
    (h : ∀ a ∈ l, f a = a) : l.map f = l := by
  induction l with
  | nil => rfl
  | cons x xs ih =>
      rw [List.map_cons, h x (List.mem_cons_self x xs),
        ih (fun a ha => h a (List.mem_cons_of_mem x ha))]

lemma optSum_eq_sum_getD (l : List (Option Rat)) :
    optSum l = (l.map (fun o => o.getD 0)).sum := by
  induction l with
  | nil => rfl
  | cons x xs ih =>
      cases x with
      | none => simpa [optSum, List.filterMap_cons] using ih
      | some v => simp [optSum, List.filterMap_cons] at ih ⊢; rw [ih]

lemma length_le_flatMap {α β : Type} (f : α → List β) (l : List α)
    (h : ∀ a, 1 ≤ (f a).length) : l.length ≤ (l.flatMap f).length := by
  induction l with
  | nil => simp
  | cons x xs ih =>
      rw [List.flatMap_cons, List.length_append, List.length_cons]
      have := h x
      omega

lemma filter_comm_map {α : Type} {f : α → α} {p : α → Bool} (l : List α)
    (hf : ∀ a ∈ l, p (f a) = p a) :
    (l.map f).filter p = (l.filter p).map f := by
  rw [List.filter_map]
  congr 1
  exact List.filter_congr (fun a ha => hf a ha)

/-! ### The sort of `engineer_features` commutes with key-preserving maps -/

lemma orderedInsert_map (f : MetricRow → MetricRow)
    (hf : ∀ r, (f r).customer_id = r.customer_id ∧ (f r).date = r.date)
    (x : MetricRow) (l : List MetricRow) :
    List.orderedInsert RowLE (f x) (l.map f) = (List.orderedInsert RowLE x l).map f := by
  induction l with
  | nil => rfl
  | cons y ys ih =>
      have hiff : RowLE (f x) (f y) ↔ RowLE x y := by
        unfold RowLE
        rw [(hf x).1, (hf x).2, (hf y).1, (hf y).2]
      by_cases h : RowLE x y
      · rw [List.map_cons, List.orderedInsert, List.orderedInsert,
          if_pos h, if_pos (hiff.mpr h), List.map_cons, List.map_cons]
      · rw [List.map_cons, List.orderedInsert, List.orderedInsert,
          if_neg h, if_neg (fun hc => h (hiff.mp hc)), List.map_cons, ih]

lemma insertionSort_map (f : MetricRow → MetricRow)
    (hf : ∀ r, (f r).customer_id = r.customer_id ∧ (f r).date = r.date)
    (l : List MetricRow) :
    List.insertionSort RowLE (l.map f) = (List.insertionSort RowLE l).map f := by
  induction l with
  | nil => rfl
  | cons x xs ih =>
      rw [List.map_cons, List.insertionSort, List.insertionSort, ih,
        orderedInsert_map f hf]

/-! ### Positional description of `featuresOfSorted` -/

lemma length_featuresOfSorted (s : List MetricRow) :
    (featuresOfSorted s).length = s.length := by
  simp [featuresOfSorted]

lemma getElem_featuresOfSorted (s : List MetricRow) (j : Nat)
    (h : j < (featuresOfSorted s).length) (h2 : j < s.length) :
    (featuresOfSorted s)[j] = mkFeatured (s.take j) s[j] := by
  unfold featuresOfSorted
  rw [List.getElem_map, List.getElem_range, List.getD_eq_getElem s defaultMetricRow h2]

lemma mkFeatured_customer_id (p : List MetricRow) (r : MetricRow) :
    (mkFeatured p r).customer_id = r.customer_id := rfl

lemma mkFeatured_date (p : List MetricRow) (r : MetricRow) :
    (mkFeatured p r).date = r.date := rfl

lemma self_eq_range_map {α : Type} (l : List α) (d₀ : α) :
    l = (List.range l.length).map (fun j => l.getD j d₀) := by
  apply List.ext_getElem
  · simp
  · intro n h1 h2
    rw [List.getElem_map, List.getElem_range, List.getD_eq_getElem l d₀ h1]

lemma countP_featuresOfSorted (s : List MetricRow) (c : Nat) (d : Int) :
    (featuresOfSorted s).countP (keyPF c d) = s.countP (keyP c d) := by
  unfold featuresOfSorted
  rw [List.countP_map]
  conv_rhs => rw [self_eq_range_map s defaultMetricRow, List.countP_map]
  rfl

/-! ### Locating the unique row with a given `(customer, date)` key -/

lemma keyP_fields {c : Nat} {d : Int} {r : MetricRow} (h : keyP c d r = true) :
    r.customer_id = c ∧ r.date = d := by
  unfold keyP at h
  rw [Bool.and_eq_true] at h
  exact ⟨by simpa using h.1, by simpa using h.2⟩

lemma locate (t : List MetricRow) (c : Nat) (d : Int)
    (h1 : t.countP (keyP c d) = 1) :
    ∃ (j : Nat) (hj : j < (List.insertionSort RowLE t).length),
      keyP c d ((List.insertionSort RowLE t)[j]) = true ∧
      ((List.insertionSort RowLE t).take j).countP (keyP c d) = 0 ∧
      ((List.insertionSort RowLE t).drop (j + 1)).countP (keyP c d) = 0 ∧
      (featuresOfSorted (List.insertionSort RowLE t)).filter (keyPF c d) =
        [mkFeatured ((List.insertionSort RowLE t).take j)
          ((List.insertionSort RowLE t)[j])] := by
  have hperm : (List.insertionSort RowLE t).Perm t := List.perm_insertionSort RowLE t
  have hcs : (List.insertionSort RowLE t).countP (keyP c d) = 1 :=
    (hperm.countP_eq _).trans h1
  have hpos : 0 < (List.insertionSort RowLE t).countP (keyP c d) := by omega
  obtain ⟨a, ha, hpa⟩ := List.countP_pos_iff.mp hpos
  obtain ⟨j, hj, hja⟩ := List.mem_iff_getElem.mp ha
  have hkey : keyP c d ((List.insertionSort RowLE t)[j]) = true := by rw [hja]; exact hpa
  have hsplit := countP_take_drop (keyP c d) (List.insertionSort RowLE t) j
  rw [List.drop_eq_getElem_cons hj, List.countP_cons_of_pos _ _ hkey, hcs] at hsplit
  have htake : ((List.insertionSort RowLE t).take j).countP (keyP c d) = 0 := by omega
  have hdrop : ((List.insertionSort RowLE t).drop (j + 1)).countP (keyP c d) = 0 := by omega
  refine ⟨j, hj, hkey, htake, hdrop, ?_⟩
  have hjF : j < (featuresOfSorted (List.insertionSort RowLE t)).length := by
    rw [length_featuresOfSorted]; exact hj
  have hcF : (featuresOfSorted (List.insertionSort RowLE t)).countP (keyPF c d) = 1 := by
    rw [countP_featuresOfSorted]; exact hcs
  have hFel : (featuresOfSorted (List.insertionSort RowLE t))[j] =
      mkFeatured ((List.insertionSort RowLE t).take j) ((List.insertionSort RowLE t)[j]) :=
    getElem_featuresOfSorted _ j hjF hj
  have hmem : mkFeatured ((List.insertionSort RowLE t).take j)
      ((List.insertionSort RowLE t)[j]) ∈ featuresOfSorted (List.insertionSort RowLE t) := by
    rw [← hFel]; exact List.getElem_mem hjF
  have hpF : keyPF c d (mkFeatured ((List.insertionSort RowLE t).take j)
      ((List.insertionSort RowLE t)[j])) = true := hkey
  exact single_filter hcF hmem hpF

/-! ### Claim C1: modifying the net amount at (C, D) -/

/-- The input table with the `net_gbp` value of every row keyed
`(customer c, date d)` replaced by `v` (with a unique key this is the
single row strictly at `d`), all other rows and columns untouched. -/
def modifyNet (t : List MetricRow) (c : Nat) (d : Int) (v : Rat) : List MetricRow :=
  t.map (fun r => if keyP c d r then { r with net_gbp := v } else r)

lemma featureVector_mkFeatured_net (prior : List MetricRow) (row : MetricRow) (v : Rat) :
    featureVector (mkFeatured prior { row with net_gbp := v }) =
      featureVector (mkFeatured prior row) := by
  simp only [mkFeatured, featureVector]
  cases h : prior.filter (fun r => r.customer_id == row.customer_id) <;> simp

lemma keyP_modify (c : Nat) (d : Int) (v : Rat) (r : MetricRow) :
    keyP c d (if keyP c d r then { r with net_gbp := v } else r) = keyP c d r := by
  by_cases h : keyP c d r = true
  · rw [if_pos h]; rfl
  · rw [if_neg (by simpa using h)]

/-- Claim C1 (causality / leakage).  For a table whose `(customer, date)`
key occurs once at `(c, d)` and where customer `c` has at least one strictly
earlier row, replacing the `net_gbp` value of the row at `(c, d)` by any
value leaves the feature vector (Feature Column Registry columns) of the
output row at `(c, d)` unchanged. -/
theorem c1_net_modification_leaves_features (t : List MetricRow) (c : Nat)
    (d : Int) (v : Rat)
    (h1 : t.countP (keyP c d) = 1)
    (h2 : 0 < t.countP (priorP c d)) :
    ((engineer_features (modifyNet t c d v)).filter (keyPF c d)).map featureVector =
      ((engineer_features t).filter (keyPF c d)).map featureVector := by
  have hf : ∀ r : MetricRow,
      ((if keyP c d r then { r with net_gbp := v } else r) : MetricRow).customer_id
          = r.customer_id ∧
      ((if keyP c d r then { r with net_gbp := v } else r) : MetricRow).date = r.date := by
    intro r
    by_cases h : keyP c d r = true
    · rw [if_pos h]; exact ⟨rfl, rfl⟩
    · rw [if_neg (by simpa using h)]; exact ⟨rfl, rfl⟩
  obtain ⟨j, hj, hkey, htake, hdrop, hfilter⟩ := locate t c d h1
  have hsortmap : List.insertionSort RowLE (modifyNet t c d v) =
      (List.insertionSort RowLE t).map
        (fun r => if keyP c d r then { r with net_gbp := v } else r) :=
    insertionSort_map _ hf t
  have hjm : j < ((List.insertionSort RowLE t).map
      (fun r => if keyP c d r then { r with net_gbp := v } else r)).length := by
    rw [List.length_map]; exact hj
  have hjm2 : j < (featuresOfSorted ((List.insertionSort RowLE t).map
      (fun r => if keyP c d r then { r with net_gbp := v } else r))).length := by
    rw [length_featuresOfSorted]; exact hjm
  have hgetm : ((List.insertionSort RowLE t).map
      (fun r => if keyP c d r then { r with net_gbp := v } else r))[j] =
      (if keyP c d ((List.insertionSort RowLE t)[j])
        then { (List.insertionSort RowLE t)[j] with net_gbp := v }
        else (List.insertionSort RowLE t)[j]) := List.getElem_map _
  have hcount : (featuresOfSorted ((List.insertionSort RowLE t).map
      (fun r => if keyP c d r then { r with net_gbp := v } else r))).countP (keyPF c d) = 1 := by
    rw [countP_featuresOfSorted, List.countP_map]
    have : (List.insertionSort RowLE t).countP
        ((keyP c d) ∘ (fun r => if keyP c d r then { r with net_gbp := v } else r)) =
        (List.insertionSort RowLE t).countP (keyP c d) := by
      rw [List.countP_eq_length_filter, List.countP_eq_length_filter]
      congr 1
      exact List.filter_congr (fun r _ => keyP_modify c d v r)
    rw [this, (List.perm_insertionSort RowLE t).countP_eq, h1]
  have hkeym : keyP c d (((List.insertionSort RowLE t).map
      (fun r => if keyP c d r then { r with net_gbp := v } else r))[j]) = true := by
    rw [hgetm, keyP_modify]; exact hkey
  have hFel := getElem_featuresOfSorted
    ((List.insertionSort RowLE t).map
      (fun r => if keyP c d r then { r with net_gbp := v } else r)) j hjm2 hjm
  have hmem : mkFeatured (((List.insertionSort RowLE t).map
        (fun r => if keyP c d r then { r with net_gbp := v } else r)).take j)
      (((List.insertionSort RowLE t).map
        (fun r => if keyP c d r then { r with net_gbp := v } else r))[j]) ∈
      featuresOfSorted ((List.insertionSort RowLE t).map
        (fun r => if keyP c d r then { r with net_gbp := v } else r)) := by
    rw [← hFel]; exact List.getElem_mem hjm2
  have hfilterm := single_filter hcount hmem (by exact hkeym)
  have htakem : (((List.insertionSort RowLE t).map
      (fun r => if keyP c d r then { r with net_gbp := v } else r)).take j) =
      (List.insertionSort RowLE t).take j := by
    rw [← List.map_take]
    apply map_eq_self_of_fix
    intro r hr
    have : ¬ keyP c d r = true := List.countP_eq_zero.mp htake r hr
    rw [if_neg (by simpa using this)]
  unfold engineer_features
  rw [hsortmap, hfilterm, hfilter, hgetm, htakem, if_pos hkey]
  rw [List.map_singleton, List.map_singleton, featureVector_mkFeatured_net]

theorem c1_net_modification_witness :
    ((engineer_features (modifyNet
        [{ date := 10, customer_id := 1, orders := 1, items := 2,
           gross_gbp := 20, returns_gbp := 0, net_gbp := 20 },
         { date := 11, customer_id := 1, orders := 1, items := 3,
           gross_gbp := 30, returns_gbp := 0, net_gbp := 30 }] 1 11 99)).filter
        (keyPF 1 11)).map featureVector =
      ((engineer_features
        [{ date := 10, customer_id := 1, orders := 1, items := 2,
           gross_gbp := 20, returns_gbp := 0, net_gbp := 20 },
         { date := 11, customer_id := 1, orders := 1, items := 3,
           gross_gbp := 30, returns_gbp := 0, net_gbp := 30 }]).filter
        (keyPF 1 11)).map featureVector :=
  c1_net_modification_leaves_features _ 1 11 99 (by decide) (by decide)

/-! ### Characterizing a customer's prior rows inside the sorted frame -/

lemma priorSame_char {s : List MetricRow} (hs : List.Sorted RowLE s)
    {c : Nat} {d : Int} {j : Nat} (hj : j < s.length)
    (hkey : keyP c d s[j] = true)
    (htake : (s.take j).countP (keyP c d) = 0) :
    (s.take j).filter (fun r => r.customer_id == c) = s.filter (priorP c d) := by
  obtain ⟨hc, hd⟩ := keyP_fields hkey
  have hpw : List.Pairwise RowLE (s.take j ++ s.drop j) := by
    rw [List.take_append_drop]; exact hs
  obtain ⟨hpw1, hpw2, hcross⟩ := List.pairwise_append.mp hpw
  rw [List.drop_eq_getElem_cons hj] at hpw2
  have hafter : ∀ b ∈ s.drop (j + 1), RowLE s[j] b := (List.pairwise_cons.mp hpw2).1
  have hmemdrop : s[j] ∈ s.drop j := by
    rw [List.drop_eq_getElem_cons hj]; exact List.mem_cons_self _ _
  conv_rhs => rw [← List.take_append_drop j s, List.filter_append,
    List.drop_eq_getElem_cons hj]
  have hjfalse : priorP c d s[j] = false := by
    unfold priorP
    rw [hd]
    simp
  have hdropnil : (s.drop (j + 1)).filter (priorP c d) = [] := by
    apply List.filter_eq_nil_iff.mpr
    intro b hb
    have hle := hafter b hb
    unfold RowLE at hle
    rw [hc, hd] at hle
    unfold priorP
    by_cases hbc : b.customer_id = c
    · rcases hle with hlt | ⟨_, hdle⟩
      · rw [hbc] at hlt; exact absurd hlt (lt_irrefl c)
      · simp [hbc]
        omega
    · simp [hbc]
  have htakecong : (s.take j).filter (priorP c d) =
      (s.take j).filter (fun r => r.customer_id == c) := by
    apply List.filter_congr
    intro r hr
    by_cases hrc : r.customer_id = c
    · have hle : RowLE r s[j] := hcross r hr s[j] hmemdrop
      unfold RowLE at hle
      rw [hc, hd] at hle
      have hdate : r.date ≤ d := by
        rcases hle with hlt | ⟨_, hdle⟩
        · rw [hrc] at hlt; exact absurd hlt (lt_irrefl c)
        · exact hdle
      have hne : ¬ keyP c d r = true := List.countP_eq_zero.mp htake r hr
      have hdlt : r.date < d := by
        rcases lt_or_eq_of_le hdate with h | h
        · exact h
        · exfalso
          apply hne
          unfold keyP
          simp [hrc, h]
      unfold priorP
      simp [hrc, hdlt]
    · unfold priorP
      simp [hrc]
  rw [List.filter_cons_of_neg (by simp [hjfalse]), hdropnil, htakecong,
    List.append_nil]

/-! ### Claim C6: window of exactly one prior observation -/

lemma mkFeatured_single_prior (prior : List MetricRow) (row : MetricRow)
    (r₀ : MetricRow)
    (hps : prior.filter (fun r => r.customer_id == row.customer_id) = [r₀]) :
    (mkFeatured prior row).rolling_3d_std_net = 0 ∧
    (mkFeatured prior row).rolling_3d_mean_net = r₀.net_gbp ∧
    (mkFeatured prior row).rolling_3d_max_net = r₀.net_gbp := by
  simp only [mkFeatured, hps]
  refine ⟨?_, ?_, ?_⟩
  · simp [lastN, rollingStdSq]
  · simp [lastN, rollingMean]
  · simp [lastN, rollingMax]

/-- Claim C6 (window shrinkage).  For a table in which customer `c` has
exactly one row strictly before date `d` (namely `r₀`) and exactly one row
at `(c, d)`, the output row at `(c, d)` has rolling standard deviation 0
(the embedded column holds its square; 0 iff the source std is 0) and
rolling mean and rolling max both equal to `r₀`'s net spend. -/
theorem c6_single_prior_rolling (t : List MetricRow) (c : Nat) (d : Int)
    (r₀ : MetricRow)
    (h1 : t.countP (keyP c d) = 1)
    (h2 : t.countP (priorP c d) = 1)
    (hr : r₀ ∈ t) (hpr : priorP c d r₀ = true) :
    ((engineer_features t).filter (keyPF c d)).map
        (fun fr => (fr.rolling_3d_std_net, fr.rolling_3d_mean_net,
          fr.rolling_3d_max_net)) =
      [(0, r₀.net_gbp, r₀.net_gbp)] := by
  obtain ⟨j, hj, hkey, htake, hdrop, hfilter⟩ := locate t c d h1
  have hsorted : List.Sorted RowLE (List.insertionSort RowLE t) :=
    List.sorted_insertionSort RowLE t
  have hperm : (List.insertionSort RowLE t).Perm t := List.perm_insertionSort RowLE t
  have hchar := priorSame_char hsorted hj hkey htake
  have hone : (List.insertionSort RowLE t).filter (priorP c d) = [r₀] := by
    apply single_filter
    · rw [hperm.countP_eq]; exact h2
    · exact hperm.mem_iff.mpr hr
    · exact hpr
  obtain ⟨hc, hd⟩ := keyP_fields hkey
  have hps : ((List.insertionSort RowLE t).take j).filter
      (fun r => r.customer_id == (List.insertionSort RowLE t)[j].customer_id) = [r₀] := by
    rw [hc, hchar, hone]
  obtain ⟨hstd, hmean, hmax⟩ :=
    mkFeatured_single_prior ((List.insertionSort RowLE t).take j)
      ((List.insertionSort RowLE t)[j]) r₀ hps
  unfold engineer_features
  rw [hfilter, List.map_singleton, hstd, hmean, hmax]

theorem c6_single_prior_witness :
    ((engineer_features
        [{ date := 12, customer_id := 2, orders := 3, items := 5,
           gross_gbp := 9, returns_gbp := -2, net_gbp := 7 },
         { date := 14, customer_id := 2, orders := 1, items := 1,
           gross_gbp := 3, returns_gbp := 0, net_gbp := 3 }]).filter
        (keyPF 2 14)).map
        (fun fr => (fr.rolling_3d_std_net, fr.rolling_3d_mean_net,
          fr.rolling_3d_max_net)) =
      [(0, (7 : Rat), (7 : Rat))] :=
  c6_single_prior_rolling _ 2 14
    { date := 12, customer_id := 2, orders := 3, items := 5,
      gross_gbp := 9, returns_gbp := -2, net_gbp := 7 }
    (by decide) (by decide) (by decide) (by decide)

/-! ### Claim C3: which feature groups are functions of the prior history -/

lemma causalVector_of_prior (p₁ p₂ : List MetricRow) (r₁ r₂ : MetricRow)
    (hd : r₁.date = r₂.date)
    (hps : p₁.filter (fun r => r.customer_id == r₁.customer_id) =
        p₂.filter (fun r => r.customer_id == r₂.customer_id)) :
    causalVector (mkFeatured p₁ r₁) = causalVector (mkFeatured p₂ r₂) := by
  simp only [causalVector, mkFeatured, hps, hd]

/-- Claim C3 as amended.  The calendar, rolling-window and lag features of
the output row at a unique key `(c, d)` are a deterministic function of the
date-ordered sequence of customer `c`'s own rows strictly before `d`
(formalized as the sorted frame filtered to those rows): two tables that
agree on that sequence produce identical calendar/rolling/lag feature
values at `(c, d)`, whatever their other rows and whatever the row at
`(c, d)` itself carries. -/
theorem c3_causal_feature_groups (t₁ t₂ : List MetricRow) (c : Nat) (d : Int)
    (h₁ : t₁.countP (keyP c d) = 1) (h₂ : t₂.countP (keyP c d) = 1)
    (hagree : (List.insertionSort RowLE t₁).filter (priorP c d) =
        (List.insertionSort RowLE t₂).filter (priorP c d)) :
    ((engineer_features t₁).filter (keyPF c d)).map causalVector =
      ((engineer_features t₂).filter (keyPF c d)).map causalVector := by
  obtain ⟨j₁, hj₁, hkey₁, htake₁, hdrop₁, hfilter₁⟩ := locate t₁ c d h₁
  obtain ⟨j₂, hj₂, hkey₂, htake₂, hdrop₂, hfilter₂⟩ := locate t₂ c d h₂
  have hchar₁ := priorSame_char (List.sorted_insertionSort RowLE t₁) hj₁ hkey₁ htake₁
  have hchar₂ := priorSame_char (List.sorted_insertionSort RowLE t₂) hj₂ hkey₂ htake₂
  obtain ⟨hc₁, hd₁⟩ := keyP_fields hkey₁
  obtain ⟨hc₂, hd₂⟩ := keyP_fields hkey₂
  unfold engineer_features
  rw [hfilter₁, hfilter₂, List.map_singleton, List.map_singleton]
  congr 1
  apply causalVector_of_prior
  · rw [hd₁, hd₂]
  · rw [hc₁, hc₂, hchar₁, hchar₂, hagree]

theorem c3_causal_feature_groups_witness :
    ((engineer_features
        [{ date := 10, customer_id := 1, orders := 1, items := 2,
           gross_gbp := 20, returns_gbp := 0, net_gbp := 20 },
         { date := 11, customer_id := 1, orders := 2, items := 3,
           gross_gbp := 30, returns_gbp := 0, net_gbp := 30 }]).filter
        (keyPF 1 11)).map causalVector =
      ((engineer_features
        [{ date := 10, customer_id := 1, orders := 1, items := 2,
           gross_gbp := 20, returns_gbp := 0, net_gbp := 20 },
         { date := 11, customer_id := 1, orders := 5, items := 9,
           gross_gbp := 1, returns_gbp := -1, net_gbp := 0 }]).filter
        (keyPF 1 11)).map causalVector :=
  c3_causal_feature_groups _ _ 1 11 (by decide) (by decide) (by decide)

/-- Claim C3 as stated is false: `avg_items_per_order` (and `returns_ratio`,
`orders`, `items`) at `(C, D)` read the row at `D` itself, and the lifetime
features at `(C, D)` can read the preceding customer's cumulative totals.
First conjunct: two tables with identical (empty) history of customer 1
strictly before date 10 whose feature vectors at `(1, 10)` differ (items 5
vs 3 make `avg_items_per_order` 5 vs 3).  Second conjunct: two tables that
agree on every row of customer 2 — history strictly before date 11 and the
row at `(2, 11)` itself — but differ in customer 1's `net_gbp`, and whose
feature vectors at `(2, 11)` differ (`customer_total_spend` 10 vs 20). -/
theorem c3_counterexample :
    (([({ date := 10, customer_id := 1, orders := 1, items := 5,
          gross_gbp := 5, returns_gbp := 0, net_gbp := 5 } : MetricRow)].filter
          (priorP 1 10) =
        [({ date := 10, customer_id := 1, orders := 1, items := 3,
            gross_gbp := 5, returns_gbp := 0, net_gbp := 5 } : MetricRow)].filter
          (priorP 1 10)) ∧
      ((engineer_features
          [{ date := 10, customer_id := 1, orders := 1, items := 5,
             gross_gbp := 5, returns_gbp := 0, net_gbp := 5 }]).filter
          (keyPF 1 10)).map featureVector ≠
        ((engineer_features
          [{ date := 10, customer_id := 1, orders := 1, items := 3,
             gross_gbp := 5, returns_gbp := 0, net_gbp := 5 }]).filter
          (keyPF 1 10)).map featureVector) ∧
    (([({ date := 10, customer_id := 1, orders := 2, items := 4,
          gross_gbp := 10, returns_gbp := 0, net_gbp := 10 } : MetricRow),
        { date := 11, customer_id := 2, orders := 1, items := 1,
          gross_gbp := 7, returns_gbp := 0, net_gbp := 7 }].filter
          (fun r => r.customer_id == 2) =
        [({ date := 10, customer_id := 1, orders := 2, items := 4,
            gross_gbp := 20, returns_gbp := 0, net_gbp := 20 } : MetricRow),
          { date := 11, customer_id := 2, orders := 1, items := 1,
            gross_gbp := 7, returns_gbp := 0, net_gbp := 7 }].filter
          (fun r => r.customer_id == 2)) ∧
      ((engineer_features
          [{ date := 10, customer_id := 1, orders := 2, items := 4,
             gross_gbp := 10, returns_gbp := 0, net_gbp := 10 },
           { date := 11, customer_id := 2, orders := 1, items := 1,
             gross_gbp := 7, returns_gbp := 0, net_gbp := 7 }]).filter
          (keyPF 2 11)).map featureVector ≠
        ((engineer_features
          [{ date := 10, customer_id := 1, orders := 2, items := 4,
             gross_gbp := 20, returns_gbp := 0, net_gbp := 20 },
           { date := 11, customer_id := 2, orders := 1, items := 1,
             gross_gbp := 7, returns_gbp := 0, net_gbp := 7 }]).filter
          (keyPF 2 11)).map featureVector) := by
  refine ⟨⟨by decide, by with_unfolding_all decide⟩,
    ⟨by decide, by with_unfolding_all decide⟩⟩

/-! ### Claim C2: the lifetime features of a customer's first row -/

/-- Claim C2 fails on the code: the `shift(1)` in
`create_customer_lifetime_features` is applied to the whole frame instead of
per customer, so the first row of customer 2 — which has zero prior rows of
its own — inherits customer 1's cumulative totals.  On the failing input
(customer 1: one row with orders 2 and net 10; customer 2: one later row)
the output row of customer 2 has `customer_total_orders` 2,
`customer_total_spend` 10 and `customer_avg_order_value` 5 instead of the
documented 0-defaults, while its rolling and lag features are 0 as
documented. -/
theorem c2_lifetime_cross_customer_bug :
    (engineer_features
        [{ date := 10, customer_id := 1, orders := 2, items := 4,
           gross_gbp := 10, returns_gbp := 0, net_gbp := 10 },
         { date := 11, customer_id := 2, orders := 1, items := 1,
           gross_gbp := 7, returns_gbp := 0, net_gbp := 7 }]).map
      (fun fr => (fr.customer_id, fr.customer_total_orders,
        fr.customer_total_spend, fr.customer_avg_order_value,
        fr.rolling_3d_mean_net, fr.rolling_3d_std_net, fr.rolling_3d_max_net,
        fr.rolling_3d_sum_orders, fr.lag_1d_net_gbp, fr.lag_2d_net_gbp)) =
      [(1, 0, 0, 0, 0, 0, 0, 0, 0, 0),
       (2, 2, 10, 5, 0, 0, 0, 0, 0, 0)] := by
  with_unfolding_all rfl

/-! ### Claim C7: duplicate (date, customer_id) rows -/

/-- Claim C7 as amended.  No uniqueness validation exists anywhere in the
pipeline: `engineer_features` is a total transformation that emits exactly
one output row per input row whatever the input, duplicate
`(date, customer_id)` keys included. -/
theorem c7_no_uniqueness_validation (t : List MetricRow) :
    (engineer_features t).length = t.length := by
  unfold engineer_features
  rw [length_featuresOfSorted, List.length_insertionSort]

/-- Claim C7 as stated is false: feeding two rows with identical
`(date, customer_id)` raises nothing — both rows are processed as
consecutive observations of the customer (the second sees the first as its
lag-1 / rolling history), and they are not deduplicated. -/
theorem c7_counterexample :
    (engineer_features
        [{ date := 10, customer_id := 1, orders := 1, items := 1,
           gross_gbp := 5, returns_gbp := 0, net_gbp := 5 },
         { date := 10, customer_id := 1, orders := 1, items := 1,
           gross_gbp := 5, returns_gbp := 0, net_gbp := 5 }]).map
      (fun fr => (fr.customer_id, fr.date, fr.lag_1d_net_gbp,
        fr.rolling_3d_mean_net)) =
      [(1, 10, 0, 0), (1, 10, 5, 5)] := by
  with_unfolding_all decide

/-! ### Claim C8: the prediction-time interface on zero history -/

/-- Claim C8 as amended.  At the prediction-time interface a customer with
rows in the metrics table but none strictly before the target date is
rejected: `load_customer_data` raises the "no historical data before the
target date" error instead of serving the 0-default new-customer case (a
customer with no rows at all is likewise rejected by the preceding check). -/
theorem c8_zero_history_is_error (df : List MetricRow) (customer_id : Nat)
    (target_date : Int)
    (h1 : df.filter (fun r => r.customer_id == customer_id) ≠ [])
    (h2 : (df.filter (fun r => r.customer_id == customer_id)).filter
        (fun r => decide (r.date < target_date)) = []) :
    load_customer_data df customer_id target_date =
      Except.error "No historical data found for customer before target date" := by
  unfold load_customer_data
  rw [if_neg (by rw [List.length_eq_zero]; exact h1)]
  rw [if_pos (by rw [List.length_eq_zero]; exact h2)]

theorem c8_zero_history_witness :
    load_customer_data
        [{ date := 12, customer_id := 4, orders := 1, items := 1,
           gross_gbp := 5, returns_gbp := 0, net_gbp := 5 }] 4 12 =
      Except.error "No historical data found for customer before target date" :=
  c8_zero_history_is_error _ 4 12 (by decide) (by decide)

/-- Claim C8 as stated is false at a concrete input: a request for customer
1 at target date 10, where the customer exists but has zero rows strictly
before the target date (the hypothetical new-customer case), is answered
with an error, not with a 0-default feature row. -/
theorem c8_counterexample :
    load_customer_data
        [{ date := 10, customer_id := 1, orders := 2, items := 4,
           gross_gbp := 10, returns_gbp := 0, net_gbp := 10 }] 1 10 =
      Except.error "No historical data found for customer before target date" := by
  with_unfolding_all rfl

/-! ### Claim C9: the conversion step and the rate table -/

/-- Claim C9 as amended.  `convert_to_gbp` assigns
`pd.to_datetime(fx_rates['date'])` back onto the caller's rate table: the
post-state of the rate table is exactly the input table with each date cell
normalized to a timestamp — no row is added, removed or reordered and the
currency and rate columns are untouched — and a rate table whose date
column already holds timestamps (as the ingestion layer produces) comes
back identical. -/
theorem c9_fx_table_mutation (df : List TxnLine) (fx_rates : List FxRow) :
    (convert_to_gbp df fx_rates).fx_after =
      fx_rates.map (fun r => { r with date := DateV.ts (pdToDatetime r.date) }) ∧
    ((∀ r ∈ fx_rates, ∃ n, r.date = DateV.ts n) →
      (convert_to_gbp df fx_rates).fx_after = fx_rates) := by
  constructor
  · rfl
  · intro h
    show fx_rates.map (fun r => { r with date := DateV.ts (pdToDatetime r.date) }) = fx_rates
    apply map_eq_self_of_fix
    intro r hr
    obtain ⟨n, hn⟩ := h r hr
    cases r
    simp only at hn
    rw [hn]
    rfl

theorem c9_fx_table_mutation_witness :
    (convert_to_gbp []
        [{ date := DateV.ts 19997, currency := "USD", rate_to_gbp := 4 / 5 }]).fx_after =
      [{ date := DateV.ts 19997, currency := "USD", rate_to_gbp := 4 / 5 }] :=
  (c9_fx_table_mutation [] _).2
    (by
      intro r hr
      rw [List.mem_singleton] at hr
      rw [hr]
      exact ⟨19997, rfl⟩)

/-- Claim C9 as stated is false at a concrete input: a rate table whose date
column still holds the raw CSV string is changed in place by
`convert_to_gbp` (the string date becomes a timestamp). -/
theorem c9_counterexample :
    (convert_to_gbp []
        [{ date := DateV.raw "2024-10-01", currency := "USD",
           rate_to_gbp := 4 / 5 }]).fx_after ≠
      [{ date := DateV.raw "2024-10-01", currency := "USD",
         rate_to_gbp := 4 / 5 }] := by
  with_unfolding_all decide

/-! ### Claims C4 / C10: undefined prices in the aggregation -/

/-- The converted table with every NaN `price_gbp` replaced by an explicit
price of 0 (used to state that the NaN-skipping group sums treat an
undefined price exactly as a zero price). -/
def zeroFillPrices (rows : List ConvertedLine) : List ConvertedLine :=
  rows.map (fun r =>
    if r.price_gbp.isNone then { r with price_gbp := some 0 } else r)

lemma zeroFill_fields (r : ConvertedLine) :
    ((if r.price_gbp.isNone then { r with price_gbp := some 0 } else r) :
        ConvertedLine).date = r.date ∧
    ((if r.price_gbp.isNone then { r with price_gbp := some 0 } else r) :
        ConvertedLine).customer_id = r.customer_id ∧
    ((if r.price_gbp.isNone then { r with price_gbp := some 0 } else r) :
        ConvertedLine).invoice_id = r.invoice_id ∧
    ((if r.price_gbp.isNone then { r with price_gbp := some 0 } else r) :
        ConvertedLine).quantity = r.quantity := by
  by_cases h : r.price_gbp.isNone = true
  · rw [if_pos h]; exact ⟨rfl, rfl, rfl, rfl⟩
  · rw [if_neg h]; exact ⟨rfl, rfl, rfl, rfl⟩

lemma getD_valueGbp_zeroFill (r : ConvertedLine) :
    ((valueGbp (if r.price_gbp.isNone then { r with price_gbp := some 0 }
        else r)).getD 0) = (valueGbp r).getD 0 := by
  cases h : r.price_gbp with
  | none => simp [valueGbp, h]
  | some p => simp [valueGbp, h]

lemma getD_grossValue_zeroFill (r : ConvertedLine) :
    ((grossValue (if r.price_gbp.isNone then { r with price_gbp := some 0 }
        else r)).getD 0) = (grossValue r).getD 0 := by
  cases h : r.price_gbp with
  | none =>
      by_cases hq : 0 < r.quantity
      · simp [grossValue, valueGbp, h, hq]
      · simp [grossValue, valueGbp, h, hq]
  | some p =>
      by_cases hq : 0 < r.quantity
      · simp [grossValue, valueGbp, h, hq]
      · simp [grossValue, valueGbp, h, hq]

lemma getD_returnsValue_zeroFill (r : ConvertedLine) :
    ((returnsValue (if r.price_gbp.isNone then { r with price_gbp := some 0 }
        else r)).getD 0) = (returnsValue r).getD 0 := by
  cases h : r.price_gbp with
  | none =>
      by_cases hq : r.quantity < 0
      · simp [returnsValue, valueGbp, h, hq]
      · simp [returnsValue, valueGbp, h, hq]
  | some p =>
      by_cases hq : r.quantity < 0
      · simp [returnsValue, valueGbp, h, hq]
      · simp [returnsValue, valueGbp, h, hq]


lemma optSum_map_zeroFill (g : List ConvertedLine)
    (f : ConvertedLine → Option Rat)
    (hf : ∀ r, (f (if r.price_gbp.isNone then { r with price_gbp := some 0 }
      else r)).getD 0 = (f r).getD 0) :
    optSum ((g.map (fun r =>
        if r.price_gbp.isNone then { r with price_gbp := some 0 } else r)).map f) =
      optSum (g.map f) := by
  rw [optSum_eq_sum_getD, optSum_eq_sum_getD, List.map_map, List.map_map,
    List.map_map]
  congr 1
  apply List.map_congr_left
  intro r _
  exact hf r

lemma nunique_map_zeroFill (g : List ConvertedLine) :
    nuniqueInvoices (g.map (fun r =>
      if r.price_gbp.isNone then { r with price_gbp := some 0 } else r)) =
      nuniqueInvoices g := by
  unfold nuniqueInvoices
  rw [List.map_map]
  congr 2
  apply List.map_congr_left
  intro r _
  exact (zeroFill_fields r).2.2.1

lemma items_map_zeroFill (g : List ConvertedLine) :
    ((g.map (fun r =>
      if r.price_gbp.isNone then { r with price_gbp := some 0 } else r)).map
        (fun r => (r.quantity.natAbs : Int))).sum =
      (g.map (fun r => (r.quantity.natAbs : Int))).sum := by
  rw [List.map_map]
  congr 1
  apply List.map_congr_left
  intro r _
  simp only [Function.comp]
  rw [(zeroFill_fields r).2.2.2]

lemma aggRow_zeroFill (rows : List ConvertedLine) (k : Int × Nat) :
    aggRow (zeroFillPrices rows) k = aggRow rows k := by
  have hp : ∀ r ∈ rows,
      ((fun r : ConvertedLine => r.date == k.1 && r.customer_id == k.2)
        (if r.price_gbp.isNone then { r with price_gbp := some 0 } else r)) =
      ((fun r : ConvertedLine => r.date == k.1 && r.customer_id == k.2) r) := by
    intro r _
    obtain ⟨h1, h2, _, _⟩ := zeroFill_fields r
    simp only [h1, h2]
  have hg : (zeroFillPrices rows).filter
      (fun r => r.date == k.1 && r.customer_id == k.2) =
      (rows.filter (fun r => r.date == k.1 && r.customer_id == k.2)).map
        (fun r => if r.price_gbp.isNone then { r with price_gbp := some 0 }
          else r) := filter_comm_map rows hp
  unfold aggRow
  dsimp only
  rw [hg, nunique_map_zeroFill, items_map_zeroFill,
    optSum_map_zeroFill _ _ getD_grossValue_zeroFill,
    optSum_map_zeroFill _ _ getD_returnsValue_zeroFill,
    optSum_map_zeroFill _ _ getD_valueGbp_zeroFill]

lemma aggregate_zeroFill (rows : List ConvertedLine) :
    aggregate_daily_customer_metrics (zeroFillPrices rows) =
      aggregate_daily_customer_metrics rows := by
  have hkeys : groupKeys (zeroFillPrices rows) = groupKeys rows := by
    unfold groupKeys zeroFillPrices
    rw [List.map_map]
    congr 2
    apply List.map_congr_left
    intro r _
    obtain ⟨h1, h2, _, _⟩ := zeroFill_fields r
    simp only [Function.comp]
    rw [h1, h2]
  unfold aggregate_daily_customer_metrics
  rw [hkeys]
  apply List.map_congr_left
  intro k _
  exact aggRow_zeroFill rows k

/-- Claim C10.  A line with an undefined reporting price is aggregated
exactly as if its price were 0 — aggregating the converted table equals
aggregating the table with every NaN price replaced by an explicit 0 —
so the line still counts toward its group's `orders` and `items` while
contributing 0 to `gross_gbp`, `returns_gbp` and `net_gbp`, and the run
completes (the aggregator is a total transformation with no failure path). -/
theorem c10_nan_price_aggregates_as_zero (rows : List ConvertedLine) :
    aggregate_daily_customer_metrics rows =
      aggregate_daily_customer_metrics (zeroFillPrices rows) :=
  (aggregate_zeroFill rows).symm

lemma one_le_length_merge {α β : Type} (ms : List α) (x : β) (f : α → β) :
    1 ≤ (if ms.isEmpty then [x] else ms.map f).length := by
  cases ms with
  | nil => simp
  | cons a as => simp

/-- Claim C4 as amended.  The pipeline does not fail on an undefined
reporting price: every input line yields at least one row of the converted
table (nothing is excluded), and the aggregation of the converted table is
the same as if every undefined price were an explicit 0 (the line counts in
`orders` / `items` and adds 0 revenue); the condition is only counted and
reported as the `missing_fx` warning. -/
theorem c4_undefined_price_does_not_fail (df : List TxnLine)
    (fx_rates : List FxRow) :
    df.length ≤ (convert_to_gbp df fx_rates).out.length ∧
    aggregate_daily_customer_metrics (convert_to_gbp df fx_rates).out =
      aggregate_daily_customer_metrics
        (zeroFillPrices (convert_to_gbp df fx_rates).out) := by
  constructor
  · show df.length ≤ ((convert_to_gbp df fx_rates).out).length
    unfold convert_to_gbp
    dsimp only
    rw [List.length_map]
    split
    · rw [List.length_map]
      apply length_le_flatMap
      intro l
      exact one_le_length_merge _ _ _
    · apply length_le_flatMap
      intro l
      exact one_le_length_merge _ _ _
  · exact (aggregate_zeroFill _).symm

set_option maxRecDepth 10000 in
/-- Claim C4 as stated is false at a concrete input: a single USD line with
an empty rate table has an undefined reporting price, yet the run completes;
the aggregator emits its group row counting the line (`orders` 1, `items` 2)
with 0 gross, returns and net revenue, and the condition is only surfaced as
the `missing_fx` count. -/
theorem c4_counterexample :
    transform_data
        [{ invoice_id := 7, customer_id := 3, quantity := 2, unit_price := 5,
           currency := "USD", file_date := "2024-10-01" }] [] =
      [{ date := 19997, customer_id := 3, orders := 1, items := 2,
         gross_gbp := 0, returns_gbp := 0, net_gbp := 0 }] ∧
    (convert_to_gbp
        [{ invoice_id := 7, customer_id := 3, quantity := 2, unit_price := 5,
           currency := "USD", file_date := "2024-10-01" }] []).missing_fx = 1 := by
  constructor
  · with_unfolding_all rfl
  · with_unfolding_all rfl

/-! ### Claim C5: the aggregation formulas -/

lemma getD_value_split (r : ConvertedLine) :
    (valueGbp r).getD 0 = (grossValue r).getD 0 + (returnsValue r).getD 0 := by
  unfold grossValue returnsValue
  rcases lt_trichotomy r.quantity 0 with h | h | h
  · rw [if_neg (by omega), if_pos h]
    cases r.price_gbp <;> simp [valueGbp]
  · rw [if_neg (by omega), if_neg (by omega)]
    cases hp : r.price_gbp <;> simp [valueGbp, h, hp]
  · rw [if_pos h, if_neg (by omega)]
    cases r.price_gbp <;> simp [valueGbp]

lemma optSum_split (g : List ConvertedLine) :
    optSum (g.map valueGbp) =
      optSum (g.map grossValue) + optSum (g.map returnsValue) := by
  rw [optSum_eq_sum_getD, optSum_eq_sum_getD, optSum_eq_sum_getD,
    List.map_map, List.map_map, List.map_map]
  have : (g.map ((fun o : Option Rat => o.getD 0) ∘ valueGbp)).sum =
      (g.map (fun r => ((fun o : Option Rat => o.getD 0) ∘ grossValue) r +
        ((fun o : Option Rat => o.getD 0) ∘ returnsValue) r)).sum := by
    congr 1
    apply List.map_congr_left
    intro r _
    exact getD_value_split r
  rw [this, List.sum_map_add]

lemma countP_beq_eq_one {α : Type} [BEq α] [LawfulBEq α] {l : List α} {a : α}
    (hn : l.Nodup) (ha : a ∈ l) : l.countP (fun x => x == a) = 1 := by
  induction l with
  | nil => cases ha
  | cons b bs ih =>
      rw [List.nodup_cons] at hn
      by_cases hab : b = a
      · subst hab
        rw [List.countP_cons_of_pos _ _ (by simp)]
        have h0 : bs.countP (fun x => x == b) = 0 :=
          List.countP_eq_zero.mpr (fun x hx hbx => hn.1 (by
            rw [← beq_iff_eq.mp hbx]
            exact hx))
        omega
      · rw [List.countP_cons_of_neg _ _ (by simpa using hab)]
        rcases List.mem_cons.mp ha with h | h
        · exact absurd h.symm hab
        · exact ih hn.2 h

set_option maxRecDepth 10000 in
/-- Claim C5.  For every converted line-item table the aggregator emits
exactly one row per `(date, customer_id)` group; each output row's fields
are the group's distinct-invoice count, absolute-quantity sum and
NaN-skipping gross / returns / net sums, with net = gross + returns; on the
worked example (invoice 1 on 2024-10-01: qty 2 at 5.0 and qty -1 at 5.0;
invoice 2: qty 3 at 2.0, all GBP with the 1.0-default rate) it yields
orders 2, items 6, gross 16, returns -5, net 11. -/
theorem c5_aggregation_correct (rows : List ConvertedLine) (k : Int × Nat)
    (hk : k ∈ groupKeys rows) :
    ((aggregate_daily_customer_metrics rows).countP
        (fun m => m.date == k.1 && m.customer_id == k.2) = 1 ∧
      ∀ m ∈ aggregate_daily_customer_metrics rows,
        m.orders = (nuniqueInvoices (rows.filter
          (fun r => r.date == m.date && r.customer_id == m.customer_id)) : Int) ∧
        m.items = ((rows.filter
          (fun r => r.date == m.date && r.customer_id == m.customer_id)).map
            (fun r => (r.quantity.natAbs : Int))).sum ∧
        m.gross_gbp = optSum ((rows.filter
          (fun r => r.date == m.date && r.customer_id == m.customer_id)).map
            grossValue) ∧
        m.returns_gbp = optSum ((rows.filter
          (fun r => r.date == m.date && r.customer_id == m.customer_id)).map
            returnsValue) ∧
        m.net_gbp = optSum ((rows.filter
          (fun r => r.date == m.date && r.customer_id == m.customer_id)).map
            valueGbp) ∧
        m.net_gbp = m.gross_gbp + m.returns_gbp) ∧
    transform_data
        [{ invoice_id := 1, customer_id := 1, quantity := 2, unit_price := 5,
           currency := "GBP", file_date := "2024-10-01" },
         { invoice_id := 1, customer_id := 1, quantity := -1, unit_price := 5,
           currency := "GBP", file_date := "2024-10-01" },
         { invoice_id := 2, customer_id := 1, quantity := 3, unit_price := 2,
           currency := "GBP", file_date := "2024-10-01" }] [] =
      [{ date := 19997, customer_id := 1, orders := 2, items := 6,
         gross_gbp := 16, returns_gbp := -5, net_gbp := 11 }] := by
  refine ⟨⟨?_, ?_⟩, ?_⟩
  · unfold aggregate_daily_customer_metrics
    rw [List.countP_map]
    have hnodup : (groupKeys rows).Nodup :=
      (List.perm_insertionSort KeyLE _).symm.nodup (List.nodup_dedup _)
    have hcongr : ∀ k' ∈ groupKeys rows,
        ((fun m : MetricRow => m.date == k.1 && m.customer_id == k.2) ∘
          aggRow rows) k' = (k' == k) := by
      intro k' _
      rfl
    rw [List.countP_eq_length_filter, List.filter_congr hcongr,
      ← List.countP_eq_length_filter]
    exact countP_beq_eq_one hnodup hk
  · intro m hm
    unfold aggregate_daily_customer_metrics at hm
    obtain ⟨k', hk', rfl⟩ := List.mem_map.mp hm
    refine ⟨rfl, rfl, rfl, rfl, rfl, ?_⟩
    exact optSum_split _
  · with_unfolding_all rfl

theorem c5_aggregation_witness :
    (aggregate_daily_customer_metrics
        [{ invoice_id := 1, customer_id := 1, quantity := 2, unit_price := 5,
           currency := "GBP", file_date := "2024-10-01", date := 100,
           rate_to_gbp := some 1, price_gbp := some 5 }]).countP
      (fun m => m.date == (100 : Int) && m.customer_id == 1) = 1 :=
  (c5_aggregation_correct _ (100, 1) (by decide)).1.1
